import Mathlib

/-!
Verification development for the call-queue dispatcher of the bobtail
dashboard repository.  The definitions below are a shallow embedding of the
in-process worker module (the file defining `classifyOutcome`,
`deepSearchForOutcome`, `extractOutcome`, `processQueueCycle`,
`cleanupZombieRunningCalls`, `runWorkerLoop` and `getWorkerStatus`).
External effects (the Prisma store, the HappyRobot HTTP endpoints and the
clock) are modelled as explicit arguments: the database is a `List Call`,
provider responses are given by environment functions, and timestamps are
integer milliseconds.
-/

namespace Dispatcher

/-! ## Configuration constants (module-level constants of the worker file) -/

/-- `POLL_INTERVAL = 10_000` (ms between cycles). -/
def POLL_INTERVAL : Nat := 10000

/-- `PAUSED_CHECK_INTERVAL = 30_000` (ms when paused). -/
def PAUSED_CHECK_INTERVAL : Nat := 30000

/-- `MAX_CONSECUTIVE_ERRORS = 5`. -/
def MAX_CONSECUTIVE_ERRORS : Nat := 5

/-- `ERROR_BACKOFF_BASE = 5_000` (ms). -/
def ERROR_BACKOFF_BASE : Nat := 5000

/-- `RUNNING_CALL_TIMEOUT_MS = 40 * 60 * 1000` (40 minutes). -/
def RUNNING_CALL_TIMEOUT_MS : Int := 40 * 60 * 1000

/-- `ZOMBIE_CLEANUP_EVERY_CYCLES = 20`. -/
def ZOMBIE_CLEANUP_EVERY_CYCLES : Nat := 20

/-! ## JSON values

The provider's poll response is an arbitrary JSON structure.  `JValue`
models a JavaScript JSON value; an object is a list of key/value pairs in
insertion order (the order `Object.keys` iterates). -/

inductive JValue where
  | null
  | bool (b : Bool)
  | num (n : Int)
  | str (s : String)
  | arr (items : List JValue)
  | obj (fields : List (String × JValue))

/-- JavaScript property access `record[k]`: first binding of the key, or
`undefined` (here `none`) when absent or when the value is not an object. -/
def JValue.get? (j : JValue) (k : String) : Option JValue :=
  match j with
  | .obj fields => (fields.find? (fun p => p.1 == k)).map (·.2)
  | _ => none

/-- JavaScript truthiness of an optional string (`undefined` and `""` are
falsy, every other string is truthy). -/
def optStrTruthy : Option String → Bool
  | none => false
  | some s => s != ""

/-- JavaScript truthiness of a possibly-absent JSON value. -/
def jsTruthy : Option JValue → Bool
  | none => false
  | some .null => false
  | some (.bool b) => b
  | some (.num n) => n != 0
  | some (.str s) => s != ""
  | some (.arr _) => true
  | some (.obj _) => true

mutual

/-- JavaScript `String(v)` for a JSON value. -/
def jsToString : JValue → String
  | .null => "null"
  | .bool true => "true"
  | .bool false => "false"
  | .num n => toString n
  | .str s => s
  | .arr items => String.intercalate "," (jsToStringList items)
  | .obj _ => "[object Object]"

/-- `String(v)` pointwise on a list of JSON values (array elements). -/
def jsToStringList : List JValue → List String
  | [] => []
  | x :: xs => jsToString x :: jsToStringList xs

end

/-- JavaScript `str.includes(kw)`: substring containment.  The worker only
calls it on already-lowercased strings. -/
def jsIncludes (v kw : String) : Bool := decide (kw.data <:+: v.data)

/-- JavaScript `value.toLowerCase().trim()`, the classifier's input
normalization, written over the character list so it evaluates. -/
def jsNormalize (s : String) : String :=
  let lowered := s.data.map Char.toLower
  String.mk
    (((lowered.dropWhile Char.isWhitespace).reverse.dropWhile
        Char.isWhitespace).reverse)

/-! ## The keyword classifier (`classifyOutcome`) -/

/-- Embedding of `classifyOutcome`: lowercase and trim the value, return
`null` when empty, otherwise run the ordered chain of substring tests. -/
def classifyOutcome (value : String) : Option String :=
  let v := jsNormalize value
  if v == "" then none
  else if jsIncludes v "canceled" || jsIncludes v "cancelled" then
    some "SYSTEM_CANCELED"
  else if jsIncludes v "promise" || jsIncludes v "will_pay" ||
      jsIncludes v "will pay" || jsIncludes v "payment_promised" then
    some "PAYMENT_PROMISED"
  else if jsIncludes v "decline" || jsIncludes v "refuse" ||
      jsIncludes v "rejected" then
    some "DECLINED"
  else if jsIncludes v "dispute" then
    some "DISPUTED"
  else if jsIncludes v "no_answer" || jsIncludes v "no answer" ||
      jsIncludes v "unanswered" || jsIncludes v "not_reached" ||
      jsIncludes v "not reached" then
    some "NO_ANSWER"
  else if jsIncludes v "voicemail" || jsIncludes v "voice_mail" ||
      jsIncludes v "vm" then
    some "VOICEMAIL"
  else if jsIncludes v "wrong_number" || jsIncludes v "wrong number" ||
      jsIncludes v "invalid" then
    some "WRONG_NUMBER"
  else if jsIncludes v "callback" || jsIncludes v "call_back" ||
      jsIncludes v "call back" then
    some "CALLBACK_REQUESTED"
  else none

/-! ## Recursive outcome search (`deepSearchForOutcome`) -/

/-- Result triple of the recursive search. -/
structure SearchResult where
  callOutcome : Option String
  callDuration : Option Int
  callSummary : Option String
deriving DecidableEq

/-- The ordered candidate field names for a classification value. -/
def classificationFields : List String :=
  ["classification", "outcome", "call_outcome", "callOutcome",
   "result", "call_result", "callResult", "disposition",
   "call_disposition", "callDisposition", "status_detail",
   "call_status", "callStatus", "category"]

/-- The ordered candidate field names for a summary value. -/
def summaryFields : List String :=
  ["summary", "call_summary", "callSummary", "transcript_summary",
   "notes", "description"]

/-- The ordered candidate field names for a duration value. -/
def durationFields : List String :=
  ["duration", "call_duration", "callDuration", "duration_seconds",
   "call_length"]

/-- First classification field holding a truthy string that the keyword
classifier accepts (the loop breaks only once `classifyOutcome` succeeds). -/
def scanClassification (r : List (String × JValue)) : List String → Option String
  | [] => none
  | f :: rest =>
    match (JValue.obj r).get? f with
    | some (.str s) =>
      if s != "" then
        match classifyOutcome s with
        | some c => some c
        | none => scanClassification r rest
      else scanClassification r rest
    | _ => scanClassification r rest

/-- First summary field holding a truthy string. -/
def scanSummary (r : List (String × JValue)) : List String → Option String
  | [] => none
  | f :: rest =>
    match (JValue.obj r).get? f with
    | some (.str s) =>
      if s != "" then some s else scanSummary r rest
    | _ => scanSummary r rest

/-- First duration field holding a number (a zero number is accepted, the
source tests `typeof === "number"`, not truthiness). -/
def scanDuration (r : List (String × JValue)) : List String → Option Int
  | [] => none
  | f :: rest =>
    match (JValue.obj r).get? f with
    | some (.num n) => some n
    | _ => scanDuration r rest

/-- `typeof v === "object" && v !== null` — the values the search recurses
into (objects and arrays). -/
def isContainer : JValue → Bool
  | .obj _ => true
  | .arr _ => true
  | _ => false

/-- Merge a nested search result into the accumulator as the source's loop
body does: a value is adopted only when the nested one is present and the
accumulated one is still absent. -/
def mergeNested (acc nested : SearchResult) : SearchResult :=
  { callOutcome :=
      if optStrTruthy nested.callOutcome && !optStrTruthy acc.callOutcome then
        nested.callOutcome
      else acc.callOutcome
    callDuration :=
      if nested.callDuration.isSome && acc.callDuration.isNone then
        nested.callDuration
      else acc.callDuration
    callSummary :=
      if optStrTruthy nested.callSummary && !optStrTruthy acc.callSummary then
        nested.callSummary
      else acc.callSummary }

/-- Fuel-indexed body of `deepSearchForOutcome`.  The source bounds the
recursion by `depth > 10`; a call at depth `d` corresponds to fuel
`11 - d`, so fuel `0` is the exhausted-depth base case and every recursive
call spends one unit.  The loop's `if (callOutcome) break` is modelled as a
top-of-iteration guard in the folds, which skips every iteration after an
outcome is adopted. -/
def deepSearchGo : Nat → JValue → SearchResult
  | 0, _ => ⟨none, none, none⟩
  | fuel + 1, j =>
    match j with
    | .obj fields =>
      let base : SearchResult :=
        ⟨scanClassification fields classificationFields,
         scanDuration fields durationFields,
         scanSummary fields summaryFields⟩
      if optStrTruthy base.callOutcome then base
      else
        fields.foldl
          (fun acc p =>
            if optStrTruthy acc.callOutcome then acc
            else if isContainer p.2 then
              mergeNested acc (deepSearchGo fuel p.2)
            else acc)
          base
    | .arr items =>
      items.foldl
        (fun acc item =>
          if optStrTruthy acc.callOutcome then acc
          else mergeNested acc (deepSearchGo fuel item))
        ⟨none, none, none⟩
    | _ => ⟨none, none, none⟩

/-- Embedding of `deepSearchForOutcome(obj, depth = 0)`. -/
def deepSearchForOutcome (j : JValue) (depth : Nat := 0) : SearchResult :=
  deepSearchGo (11 - depth) j

/-! ## `extractOutcome` -/

/-- Result of `extractOutcome` (the outcome string is always present; the
fallback is `COMPLETED_UNKNOWN`). -/
structure ExtractResult where
  callOutcome : String
  callDuration : Option Int
  callSummary : Option String
deriving DecidableEq

/-- Embedding of `extractOutcome`: run the deep search, default the outcome
to `COMPLETED_UNKNOWN`, and override with `CONNECT_FAILED` when the
duration is exactly zero, the terminal run status is `completed` or
`canceled`, and no classification was found. -/
def extractOutcome (fullResponse : JValue) (runStatus : String) : ExtractResult :=
  let result := deepSearchForOutcome fullResponse
  let callOutcome := result.callOutcome.getD "COMPLETED_UNKNOWN"
  let callOutcome :=
    if result.callDuration == some 0 &&
        (runStatus == "completed" || runStatus == "canceled") &&
        !optStrTruthy result.callOutcome then
      "CONNECT_FAILED"
    else callOutcome
  ⟨callOutcome, result.callDuration, result.callSummary⟩

/-! ## Calls and the store

The dispatcher's view of the store is the list of the campaign's call rows.
Ids are the rows' primary keys; timestamps are integer milliseconds.
Debtor/invoice data only feeds the trigger payload sent to the provider and
is not read back by the dispatcher, so the provider's reaction is modelled
directly as a per-call environment function. -/

inductive CallStatus where
  | PENDING
  | RUNNING
  | COMPLETED
  | FAILED
  | CANCELED
deriving DecidableEq

structure Call where
  id : Nat
  status : CallStatus
  runId : Option String
  attemptNumber : Nat
  createdAt : Int
  updatedAt : Int
  triggeredAt : Option Int
  completedAt : Option Int
  callOutcome : Option String
  callDuration : Option Int
  callSummary : Option String
  errorMessage : Option String
  metadata : Option String
deriving DecidableEq

/-- `prisma.call.update({ where: { id }, data })`: apply the field update to
every row with the given id (with unique ids, at most one). -/
def updateCall (calls : List Call) (i : Nat) (f : Call → Call) : List Call :=
  calls.map (fun c => if c.id = i then f c else c)

/-- `prisma.call.count({ where: { status } })` for the campaign. -/
def countByStatus (calls : List Call) (st : CallStatus) : Nat :=
  (calls.filter (fun c => c.status = st)).length

/-- Insert a call into a list sorted by ascending `createdAt`. -/
def insertByCreatedAt (c : Call) : List Call → List Call
  | [] => [c]
  | x :: xs =>
    if c.createdAt ≤ x.createdAt then c :: x :: xs
    else x :: insertByCreatedAt c xs

/-- Sort by ascending `createdAt` (the `orderBy: { createdAt: "asc" }` of
the pending-call query). -/
def sortByCreatedAt : List Call → List Call
  | [] => []
  | c :: cs => insertByCreatedAt c (sortByCreatedAt cs)

/-- The pending-call query of the trigger phase:
`findMany({ where: { status: "PENDING" }, take, orderBy: createdAt asc })`. -/
def takePendingCalls (calls : List Call) (takeCount : Nat) : List Call :=
  (sortByCreatedAt (calls.filter (fun c => c.status = .PENDING))).take takeCount

/-! ## Provider client -/

/-- Outcome of the HTTP POST behind `triggerCall`, as seen by the worker:
a non-2xx status with its error text, a 2xx response whose JSON body may or
may not carry `queued_run_ids`, or a thrown network error. -/
inductive TriggerHttp where
  | httpError (status : Nat) (text : String)
  | ok (queuedRunIds : Option (List String))
  | networkError (msg : String)

/-- The record `triggerCall` resolves to. -/
structure TriggerResult where
  success : Bool
  runId : Option String
  error : Option String

/-- Embedding of `triggerCall`: map the HTTP outcome to
`{ success, runId?, error? }`.  `queued_run_ids?.[0]` is the first element
when present, and a missing or empty run id (`!runId`) is a failure. -/
def triggerCall (resp : TriggerHttp) : TriggerResult :=
  match resp with
  | .httpError status text =>
    ⟨false, none, some ("HTTP " ++ toString status ++ ": " ++ text)⟩
  | .networkError msg => ⟨false, none, some msg⟩
  | .ok ids =>
    match ids.bind List.head? with
    | none => ⟨false, none, some "No run ID returned from HappyRobot"⟩
    | some rid =>
      if rid == "" then ⟨false, none, some "No run ID returned from HappyRobot"⟩
      else ⟨true, some rid, none⟩

/-- Outcome of the GET behind `pollRunStatus`: HTTP 404, another non-OK
status, a thrown network error, or an OK response with a JSON body. -/
inductive PollHttp where
  | notFound404
  | httpError
  | networkError
  | ok (body : JValue)

/-- Embedding of `pollRunStatus`: 404 becomes the synthetic
`{ status: "not_found" }` body, any other failure becomes `null`. -/
def pollRunStatus (resp : PollHttp) : Option JValue :=
  match resp with
  | .notFound404 => some (.obj [("status", .str "not_found")])
  | .httpError => none
  | .networkError => none
  | .ok body => some body

/-! ## The stale-call reaper (`cleanupZombieRunningCalls`) -/

/-- The reaper's failure message. -/
def zombieErrorMessage : String :=
  "Marked failed by worker cleanup after exceeding 40 minutes in RUNNING status"

/-- The reaper's staleness test against `cutoff = now - timeout`: RUNNING
with `triggeredAt ≤ cutoff`, or with no `triggeredAt` and
`updatedAt ≤ cutoff`. -/
def isZombie (cutoff : Int) (c : Call) : Bool :=
  c.status = .RUNNING &&
    (match c.triggeredAt with
     | some t => t ≤ cutoff
     | none => c.updatedAt ≤ cutoff)

/-- Embedding of `cleanupZombieRunningCalls`.  `now` is the clock sample
taken for the cutoff and `now2` the (slightly later) sample stored in
`completedAt`.  Returns the updated store and the number of reaped calls. -/
def cleanupZombieRunningCalls (calls : List Call) (now now2 : Int) :
    List Call × Nat :=
  let cutoff := now - RUNNING_CALL_TIMEOUT_MS
  let staleCallIds := (calls.filter (isZombie cutoff)).map Call.id
  if staleCallIds.length = 0 then (calls, 0)
  else
    (calls.map (fun c =>
       if c.id ∈ staleCallIds then
         { c with status := .FAILED, callOutcome := some "SYSTEM_TIMEOUT",
                  completedAt := some now2,
                  errorMessage := some zombieErrorMessage }
       else c),
     staleCallIds.length)

/-! ## One queue cycle (`processQueueCycle`) -/

/-- `statusMap[runStatus] ?? "RUNNING"`. -/
def statusMapLookup (runStatus : String) : CallStatus :=
  if runStatus == "pending" then .RUNNING
  else if runStatus == "running" then .RUNNING
  else if runStatus == "completed" then .COMPLETED
  else if runStatus == "failed" then .FAILED
  else if runStatus == "canceled" then .CANCELED
  else .RUNNING

/-- `String(status.status ?? "running").toLowerCase()` (`??` also fires on
an explicit `null` value). -/
def runStatusOf (body : JValue) : String :=
  let v := match body.get? "status" with
           | none => "running"
           | some .null => "running"
           | some w => jsToString w
  String.mk (v.data.map Char.toLower)

mutual

/-- `JSON.stringify` of a JSON value (the worker only stores it, truncated,
in the debug `metadata` column). -/
def jsonStringify : JValue → String
  | .null => "null"
  | .bool true => "true"
  | .bool false => "false"
  | .num n => toString n
  | .str s => "\"" ++ s ++ "\""
  | .arr items => "[" ++ String.intercalate "," (jsonStringifyList items) ++ "]"
  | .obj fields => "\x7b" ++ String.intercalate "," (jsonStringifyFields fields) ++ "\x7d"

def jsonStringifyList : List JValue → List String
  | [] => []
  | x :: xs => jsonStringify x :: jsonStringifyList xs

def jsonStringifyFields : List (String × JValue) → List String
  | [] => []
  | (k, v) :: xs => ("\"" ++ k ++ "\":" ++ jsonStringify v) :: jsonStringifyFields xs

end

/-- The size-capped raw-response copy stored in `metadata`. -/
def metadataOf (body : JValue) : String :=
  let fullResponse := jsonStringify body
  if fullResponse.length > 10000 then fullResponse.take 10000 ++ "..." else fullResponse

/-- One iteration of the trigger loop for a selected PENDING call: stamp
`triggeredAt`, invoke the provider, then either persist the run id together
with status RUNNING, or mark the call FAILED with the error detail.
Returns the updated store and the `triggered` increment. -/
def triggerStep (now : Int) (trigEnv : Nat → TriggerHttp) (db : List Call)
    (c : Call) : List Call × Nat :=
  let db1 := updateCall db c.id (fun x => { x with triggeredAt := some now })
  let result := triggerCall (trigEnv c.id)
  if result.success && optStrTruthy result.runId then
    (updateCall db1 c.id
       (fun x => { x with runId := result.runId, status := .RUNNING }), 1)
  else
    (updateCall db1 c.id
       (fun x => { x with status := .FAILED, errorMessage := result.error,
                          completedAt := some now }), 0)

/-- The trigger loop over the selected batch (sequential, oldest first). -/
def triggerBatch (now : Int) (trigEnv : Nat → TriggerHttp) :
    List Call → List Call → List Call × Nat
  | db, [] => (db, 0)
  | db, c :: rest =>
    let s := triggerStep now trigEnv db c
    let r := triggerBatch now trigEnv s.1 rest
    (r.1, s.2 + r.2)

/-- One iteration of the poll loop for a RUNNING call: skip when the run id
is falsy, poll the provider, leave the row untouched when the provider is
unavailable, mark it lost on `not_found`, and persist the classified
terminal result when the mapped status leaves RUNNING.  Returns the updated
store and the `polled` and `completed` increments. -/
def pollStep (now : Int) (pollEnv : String → PollHttp) (dateEnv : String → Int)
    (db : List Call) (c : Call) : List Call × Nat × Nat :=
  match c.runId with
  | none => (db, 0, 0)
  | some rid =>
    if rid == "" then (db, 0, 0)
    else
      match pollRunStatus (pollEnv rid) with
      | none => (db, 1, 0)
      | some body =>
        let runStatus := runStatusOf body
        if runStatus == "not_found" then
          (updateCall db c.id (fun x =>
             { x with status := .FAILED,
                      callOutcome := some "CALL_LOST_BY_PROVIDER",
                      completedAt := some now,
                      errorMessage :=
                        some ("Run not found at provider (404) for runId=" ++ rid) }),
           1, 1)
        else
          let newStatus := statusMapLookup runStatus
          if newStatus ≠ .RUNNING then
            let eo := extractOutcome body runStatus
            let compAt :=
              if jsTruthy (body.get? "completed_at") then
                dateEnv (jsToString ((body.get? "completed_at").getD .null))
              else now
            (updateCall db c.id (fun x =>
               { x with status := newStatus, completedAt := some compAt,
                        callOutcome := some eo.callOutcome,
                        callDuration := eo.callDuration,
                        callSummary := eo.callSummary,
                        metadata := some (metadataOf body) }),
             1, 1)
          else (db, 1, 0)

/-- The poll loop over the selected RUNNING calls. -/
def pollBatch (now : Int) (pollEnv : String → PollHttp) (dateEnv : String → Int) :
    List Call → List Call → List Call × Nat × Nat
  | db, [] => (db, 0, 0)
  | db, c :: rest =>
    let s := pollStep now pollEnv dateEnv db c
    let r := pollBatch now pollEnv dateEnv s.1 rest
    (r.1, s.2.1 + r.2.1, s.2.2 + r.2.2)

/-- The poll phase's selection:
`findMany({ where: { status: "RUNNING", runId: { not: null } } })`. -/
def pollSelection (calls : List Call) : List Call :=
  calls.filter (fun c => c.status = .RUNNING && c.runId.isSome)

/-- Counters returned by one cycle, with the resulting store. -/
structure CycleResult where
  calls : List Call
  triggered : Nat
  polled : Nat
  completed : Nat

/-- Embedding of `processQueueCycle`.  `maxConcurrent` is the configured
`MAX_CONCURRENT` ceiling and `consecutiveErrors` the loop's error counter
(read by the degraded-mode throttle).  When not paused and capacity is
available, the batch is the oldest PENDING calls bounded by the available
slots — further capped at 5 in degraded mode — and is triggered
sequentially; afterwards every RUNNING call with a non-null run id is
polled.  (`shouldStop` is false for the whole cycle: mid-cycle stop
requests are not modelled.) -/
def processQueueCycle (maxConcurrent : Nat) (consecutiveErrors : Nat)
    (isPaused : Bool) (trigEnv : Nat → TriggerHttp)
    (pollEnv : String → PollHttp) (dateEnv : String → Int) (now : Int)
    (calls : List Call) : CycleResult :=
  let runningCount := countByStatus calls .RUNNING
  let trigRes :=
    if !isPaused then
      let slotsAvailable : Int := (maxConcurrent : Int) - (runningCount : Int)
      if slotsAvailable > 0 then
        let takeCount : Nat :=
          if consecutiveErrors > 2 then min slotsAvailable.toNat 5
          else slotsAvailable.toNat
        triggerBatch now trigEnv calls (takePendingCalls calls takeCount)
      else (calls, 0)
    else (calls, 0)
  let runningCalls := pollSelection trigRes.1
  let pollRes := pollBatch now pollEnv dateEnv trigRes.1 runningCalls
  ⟨pollRes.1, trigRes.2, pollRes.2.1, pollRes.2.2⟩

/-! ## The worker loop (`runWorkerLoop`)

The loop's interaction with the store and the provider inside one
iteration is abstracted into an observation: whether the active campaign is
still the same, the pending/running counts and pause flag reported by
`getWorkStatus`, and whether an awaited call of the iteration body threw.
The single `catch` of the `while` handles every such throw, but the throw
site matters for the error counter: the active-campaign re-check, the
work-status read and `processQueueCycle` are awaited while the counter
still holds its entry value, whereas the post-cycle `getWorkStatus` is
awaited after `consecutiveErrors = 0` has already run in the same try — a
throw there is caught with the counter freshly reset.  The periodic zombie
cleanup runs before all of those awaited calls and its own failure is
swallowed by an inner catch. -/

/-- Mutable worker state carried across loop iterations (`isRunning`,
`shouldStop`, `consecutiveErrors` and the local `cycleCount`). -/
structure LoopState where
  isRunning : Bool
  shouldStop : Bool
  consecutiveErrors : Nat
  cycleCount : Nat
deriving DecidableEq

/-- What one loop iteration observes from its collaborators.  `throws`
means an awaited call threw before the post-cycle counter reset (the
active-campaign re-check, the work-status read, or `processQueueCycle`
itself); `throwsAfterCycle` means the post-cycle `getWorkStatus` threw,
after `consecutiveErrors = 0` had already run — that read only happens on
iterations that actually execute a dispatch+poll cycle. -/
structure CycleObs where
  campaignSame : Bool
  isPaused : Bool
  pending : Nat
  running : Nat
  throws : Bool
  throwsAfterCycle : Bool
deriving DecidableEq

/-- Why the `while` loop was left. -/
inductive LoopExit where
  | campaignChanged
  | completed
  | circuitBreaker
  | stopped
deriving DecidableEq

/-- Everything one iteration did: the successor state, a `break` reason if
any, the sleep it performed, whether it marked the campaign COMPLETED,
whether the periodic zombie cleanup ran, and whether `processQueueCycle`
was executed. -/
structure IterResult where
  state : LoopState
  exit : Option LoopExit
  sleptMs : Option Nat
  markedCompleted : Bool
  ranCleanup : Bool
  ranCycle : Bool
deriving DecidableEq

/-- Exponential backoff after the n-th consecutive error:
`min(ERROR_BACKOFF_BASE * 2^(n-1), 60_000)`. -/
def backoffMs (consecutiveErrors : Nat) : Nat :=
  min (ERROR_BACKOFF_BASE * 2 ^ (consecutiveErrors - 1)) 60000

/-- One iteration of the `while (!shouldStop)` body.  The cycle counter is
incremented first and the periodic cleanup runs on every 20th cycle.  On a
pre-reset throw the error counter is incremented from its entry value and
the loop breaks once it reaches `MAX_CONSECUTIVE_ERRORS`, otherwise it
backs off and retries.  Without such a throw: a changed campaign breaks; a
paused campaign with nothing running resets the error counter and sleeps
the paused interval; an unpaused campaign with no work marks itself
COMPLETED and breaks; otherwise the dispatch+poll cycle ran and the error
counter was reset to zero — if the post-cycle `getWorkStatus` then throws,
the catch increments that freshly reset counter (so it ends at 1 no matter
its entry value) and backs off, else the loop sleeps the poll interval. -/
def loopIter (s : LoopState) (obs : CycleObs) : IterResult :=
  let cyc := s.cycleCount + 1
  let cleanup : Bool := cyc % ZOMBIE_CLEANUP_EVERY_CYCLES == 0
  if obs.throws then
    let errs := s.consecutiveErrors + 1
    let s' := { s with cycleCount := cyc, consecutiveErrors := errs }
    if MAX_CONSECUTIVE_ERRORS ≤ errs then
      ⟨s', some .circuitBreaker, none, false, cleanup, false⟩
    else
      ⟨s', none, some (backoffMs errs), false, cleanup, false⟩
  else if !obs.campaignSame then
    ⟨{ s with cycleCount := cyc }, some .campaignChanged, none, false, cleanup, false⟩
  else if obs.isPaused && obs.running == 0 then
    ⟨{ s with cycleCount := cyc, consecutiveErrors := 0 }, none,
     some PAUSED_CHECK_INTERVAL, false, cleanup, false⟩
  else if !obs.isPaused && obs.pending == 0 && obs.running == 0 then
    ⟨{ s with cycleCount := cyc }, some .completed, none, true, cleanup, false⟩
  else if obs.throwsAfterCycle then
    let errs := 0 + 1
    let s' := { s with cycleCount := cyc, consecutiveErrors := errs }
    if MAX_CONSECUTIVE_ERRORS ≤ errs then
      ⟨s', some .circuitBreaker, none, false, cleanup, true⟩
    else
      ⟨s', none, some (backoffMs errs), false, cleanup, true⟩
  else
    ⟨{ s with cycleCount := cyc, consecutiveErrors := 0 }, none,
     some POLL_INTERVAL, false, cleanup, true⟩

/-- Run the `while` loop from a state over a finite list of per-iteration
observations.  A `break` (or an observed stop flag) leaves the loop, after
which `isRunning := false; shouldStop := false`.  If the observations run
out first the worker is still inside the loop. -/
def runLoopFrom (s : LoopState) : List CycleObs → LoopState × Option LoopExit
  | [] => (s, none)
  | obs :: rest =>
    if s.shouldStop then
      ({ s with isRunning := false, shouldStop := false }, some .stopped)
    else
      let r := loopIter s obs
      match r.exit with
      | some e => ({ r.state with isRunning := false, shouldStop := false }, some e)
      | none => runLoopFrom r.state rest

/-- What `getWorkStatus` reports before the loop starts. -/
structure StartupObs where
  pending : Nat
  running : Nat
  isPaused : Bool
deriving DecidableEq

/-- How `runWorkerLoop` proceeds after the initial `getWorkStatus`. -/
inductive StartupDecision where
  | markCompletedAndStop
  | enterLoop
deriving DecidableEq

/-- The startup check of `runWorkerLoop`: with zero pending and zero
running calls the campaign is marked COMPLETED and the worker stops —  the
pause flag is not consulted here. -/
def workerStartupDecision (o : StartupObs) : StartupDecision :=
  if o.pending = 0 && o.running = 0 then .markCompletedAndStop else .enterLoop

/-- The pre-loop phase of `runWorkerLoop` after a campaign was found: the
zombie cleanup always runs first (its failure is non-fatal), then the
initial work status decides between completing and entering the loop. -/
structure StartupResult where
  ranCleanup : Bool
  decision : StartupDecision
deriving DecidableEq

def runWorkerStartup (o : StartupObs) : StartupResult :=
  ⟨true, workerStartupDecision o⟩

/-- What the `status()` surface reports. -/
structure WorkerStatus where
  running : Bool
  healthy : Bool
deriving DecidableEq

/-- Embedding of `getWorkerStatus`: healthy iff running and the error
counter is below the circuit-breaker maximum. -/
def getWorkerStatus (s : LoopState) : WorkerStatus :=
  ⟨s.isRunning, s.isRunning && decide (s.consecutiveErrors < MAX_CONSECUTIVE_ERRORS)⟩

/-! ## Derived notions used by the statements -/

/-- `find?` by primary key: the row a `prisma` unique-id read returns. -/
def findById (calls : List Call) (i : Nat) : Option Call :=
  calls.find? (fun c => c.id == i)

/-- The run-id/status invariant of the data model: a PENDING call has no
run identifier, a RUNNING call has a non-null one. -/
def CallInv (c : Call) : Prop :=
  (c.status = .PENDING → c.runId = none) ∧
  (c.status = .RUNNING → c.runId ≠ none)

instance (c : Call) : Decidable (CallInv c) := by
  unfold CallInv; infer_instance

/-- The keyword → outcome table exactly as the specification's sentence
lists it (one entry per spec keyword), used to state the spec's claim. -/
def specClaimVocab : List (String × String) :=
  [("promise", "PAYMENT_PROMISED"), ("will pay", "PAYMENT_PROMISED"),
   ("decline", "DECLINED"), ("refuse", "DECLINED"),
   ("no answer", "NO_ANSWER"), ("not reached", "NO_ANSWER"),
   ("voicemail", "VOICEMAIL"),
   ("wrong number", "WRONG_NUMBER"), ("invalid", "WRONG_NUMBER"),
   ("callback", "CALLBACK_REQUESTED"),
   ("dispute", "DISPUTED"),
   ("cancel", "SYSTEM_CANCELED")]

/-- The full keyword → outcome table of `classifyOutcome` itself, in the
source's priority order (every substring the chain tests, with the code it
yields). -/
def codeVocab : List (String × String) :=
  [("canceled", "SYSTEM_CANCELED"), ("cancelled", "SYSTEM_CANCELED"),
   ("promise", "PAYMENT_PROMISED"), ("will_pay", "PAYMENT_PROMISED"),
   ("will pay", "PAYMENT_PROMISED"), ("payment_promised", "PAYMENT_PROMISED"),
   ("decline", "DECLINED"), ("refuse", "DECLINED"), ("rejected", "DECLINED"),
   ("dispute", "DISPUTED"),
   ("no_answer", "NO_ANSWER"), ("no answer", "NO_ANSWER"),
   ("unanswered", "NO_ANSWER"), ("not_reached", "NO_ANSWER"),
   ("not reached", "NO_ANSWER"),
   ("voicemail", "VOICEMAIL"), ("voice_mail", "VOICEMAIL"), ("vm", "VOICEMAIL"),
   ("wrong_number", "WRONG_NUMBER"), ("wrong number", "WRONG_NUMBER"),
   ("invalid", "WRONG_NUMBER"),
   ("callback", "CALLBACK_REQUESTED"), ("call_back", "CALLBACK_REQUESTED"),
   ("call back", "CALLBACK_REQUESTED")]

end Dispatcher

namespace Dispatcher

/-! ## Store-level helper lemmas -/

theorem updateCall_map_id (l : List Call) (i : Nat) (f : Call → Call)
    (hf : ∀ c, (f c).id = c.id) :
    (updateCall l i f).map Call.id = l.map Call.id := by
  induction l with
  | nil => rfl
  | cons h t ih =>
    simp only [updateCall, List.map_cons] at ih ⊢
    split <;> simp [hf, ih]

theorem updateCall_of_not_mem (l : List Call) (i : Nat) (f : Call → Call)
    (h : i ∉ l.map Call.id) : updateCall l i f = l := by
  induction l with
  | nil => rfl
  | cons c t ih =>
    simp only [List.map_cons, List.mem_cons] at h
    push_neg at h
    simp only [updateCall, List.map_cons] at ih ⊢
    rw [if_neg (fun hh => h.1 hh.symm), ih h.2]

theorem countByStatus_cons (c : Call) (l : List Call) (st : CallStatus) :
    countByStatus (c :: l) st =
      (if c.status = st then 1 else 0) + countByStatus l st := by
  simp only [countByStatus, List.filter_cons]
  split <;> first | (simp_all; omega) | simp_all

theorem countByStatus_update_status_eq (l : List Call) (i : Nat)
    (f : Call → Call) (st : CallStatus) (hf : ∀ c, (f c).status = c.status) :
    countByStatus (updateCall l i f) st = countByStatus l st := by
  induction l with
  | nil => rfl
  | cons c t ih =>
    simp only [updateCall, List.map_cons] at ih ⊢
    rw [countByStatus_cons]
    split <;> rw [countByStatus_cons] <;> simp [hf, ih]

theorem countRunning_update_not_running (l : List Call) (i : Nat)
    (f : Call → Call) (hf : ∀ c, (f c).status ≠ .RUNNING) :
    countByStatus (updateCall l i f) .RUNNING ≤ countByStatus l .RUNNING := by
  induction l with
  | nil => exact Nat.le_refl _
  | cons c t ih =>
    simp only [updateCall, List.map_cons] at ih ⊢
    rw [countByStatus_cons]
    split
    · rw [if_neg (hf c), countByStatus_cons]
      split <;> omega
    · rw [countByStatus_cons]; omega

theorem countRunning_update_le_succ (l : List Call) (i : Nat)
    (f : Call → Call) (hnd : (l.map Call.id).Nodup) :
    countByStatus (updateCall l i f) .RUNNING ≤
      countByStatus l .RUNNING + 1 := by
  induction l with
  | nil => simp [updateCall, countByStatus]
  | cons c t ih =>
    simp only [List.map_cons, List.nodup_cons] at hnd
    simp only [updateCall, List.map_cons] at ih ⊢
    rw [countByStatus_cons]
    split
    · rename_i hc
      have ht : updateCall t i f = t :=
        updateCall_of_not_mem t i f (hc ▸ hnd.1)
      simp only [updateCall] at ht
      rw [ht, countByStatus_cons]
      split <;> split <;> omega
    · rw [countByStatus_cons]
      have := ih hnd.2
      split <;> omega

theorem findById_mem (l : List Call) (c : Call)
    (hnd : (l.map Call.id).Nodup) (hc : c ∈ l) :
    findById l c.id = some c := by
  induction l with
  | nil => cases hc
  | cons h t ih =>
    simp only [List.map_cons, List.nodup_cons] at hnd
    rcases List.mem_cons.mp hc with rfl | hct
    · simp [findById, List.find?]
    · have hne : h.id ≠ c.id := by
        intro he
        exact hnd.1 (he ▸ List.mem_map_of_mem Call.id hct)
      unfold findById
      rw [List.find?_cons_of_neg _ (by simpa using hne)]
      exact ih hnd.2 hct

theorem findById_update_ne (l : List Call) (i j : Nat) (f : Call → Call)
    (hf : ∀ c, (f c).id = c.id) (h : j ≠ i) :
    findById (updateCall l j f) i = findById l i := by
  induction l with
  | nil => rfl
  | cons c t ih =>
    simp only [updateCall, List.map_cons, findById] at ih ⊢
    by_cases hc : c.id = j
    · rw [if_pos hc, List.find?_cons_of_neg _ (by simp [hf, hc, h]),
        List.find?_cons_of_neg _ (by simp [hc, h])]
      exact ih
    · rw [if_neg hc]
      by_cases hb : c.id = i
      · rw [List.find?_cons_of_pos _ (by simp [hb]),
          List.find?_cons_of_pos _ (by simp [hb])]
      · rw [List.find?_cons_of_neg _ (by simp [hb]),
          List.find?_cons_of_neg _ (by simp [hb])]
        exact ih

theorem findById_update_self (l : List Call) (i : Nat) (f : Call → Call)
    (hf : ∀ c, (f c).id = c.id) :
    findById (updateCall l i f) i = (findById l i).map f := by
  induction l with
  | nil => rfl
  | cons c t ih =>
    simp only [updateCall, List.map_cons, findById] at ih ⊢
    by_cases hc : c.id = i
    · rw [if_pos hc, List.find?_cons_of_pos _ (by simp [hf, hc]),
        List.find?_cons_of_pos _ (by simp [hc])]
      rfl
    · rw [if_neg hc, List.find?_cons_of_neg _ (by simp [hc]),
        List.find?_cons_of_neg _ (by simp [hc])]
      exact ih

/-! ## Lemmas about the trigger and poll folds -/

theorem triggerStep_map_id (now : Int) (env : Nat → TriggerHttp)
    (db : List Call) (c : Call) :
    (triggerStep now env db c).1.map Call.id = db.map Call.id := by
  unfold triggerStep
  dsimp only
  split <;>
    rw [updateCall_map_id _ _ _ (by intro x; rfl),
      updateCall_map_id _ _ _ (by intro x; rfl)]

theorem triggerStep_trig_le (now : Int) (env : Nat → TriggerHttp)
    (db : List Call) (c : Call) : (triggerStep now env db c).2 ≤ 1 := by
  unfold triggerStep
  dsimp only
  split <;> simp

theorem triggerStep_count (now : Int) (env : Nat → TriggerHttp)
    (db : List Call) (c : Call) (hnd : (db.map Call.id).Nodup) :
    countByStatus (triggerStep now env db c).1 .RUNNING ≤
      countByStatus db .RUNNING + (triggerStep now env db c).2 := by
  unfold triggerStep
  dsimp only
  have h1 : countByStatus
      (updateCall db c.id (fun x => { x with triggeredAt := some now }))
      .RUNNING = countByStatus db .RUNNING :=
    countByStatus_update_status_eq _ _ _ _ (by intro x; rfl)
  split
  · refine le_trans (countRunning_update_le_succ _ c.id _ ?_) ?_
    · rw [updateCall_map_id _ _ _ (by intro x; rfl)]; exact hnd
    · rw [h1]
  · refine le_trans (countRunning_update_not_running _ c.id _ ?_) ?_
    · intro x; simp
    · rw [h1]; omega

theorem triggerBatch_map_id (now : Int) (env : Nat → TriggerHttp)
    (batch : List Call) (db : List Call) :
    (triggerBatch now env db batch).1.map Call.id = db.map Call.id := by
  induction batch generalizing db with
  | nil => rfl
  | cons c rest ih =>
    show ((triggerBatch now env (triggerStep now env db c).1 rest).1.map Call.id)
        = db.map Call.id
    rw [ih, triggerStep_map_id]

theorem triggerBatch_trig_le (now : Int) (env : Nat → TriggerHttp)
    (batch : List Call) (db : List Call) :
    (triggerBatch now env db batch).2 ≤ batch.length := by
  induction batch generalizing db with
  | nil => simp [triggerBatch]
  | cons c rest ih =>
    show (triggerStep now env db c).2 +
        (triggerBatch now env (triggerStep now env db c).1 rest).2 ≤ rest.length + 1
    have := triggerStep_trig_le now env db c
    have := ih (triggerStep now env db c).1
    omega

theorem triggerBatch_count (now : Int) (env : Nat → TriggerHttp)
    (batch : List Call) (db : List Call) (hnd : (db.map Call.id).Nodup) :
    countByStatus (triggerBatch now env db batch).1 .RUNNING ≤
      countByStatus db .RUNNING + (triggerBatch now env db batch).2 := by
  induction batch generalizing db with
  | nil => simp [triggerBatch]
  | cons c rest ih =>
    have hnd1 : ((triggerStep now env db c).1.map Call.id).Nodup := by
      rw [triggerStep_map_id]; exact hnd
    have h1 := triggerStep_count now env db c hnd
    have h2 := ih (triggerStep now env db c).1 hnd1
    show countByStatus (triggerBatch now env (triggerStep now env db c).1 rest).1
        .RUNNING ≤ countByStatus db .RUNNING +
          ((triggerStep now env db c).2 +
            (triggerBatch now env (triggerStep now env db c).1 rest).2)
    omega

theorem triggerBatch_find_untouched (now : Int) (env : Nat → TriggerHttp)
    (batch : List Call) (db : List Call) (i : Nat)
    (h : i ∉ batch.map Call.id) :
    findById (triggerBatch now env db batch).1 i = findById db i := by
  induction batch generalizing db with
  | nil => rfl
  | cons c rest ih =>
    simp only [List.map_cons, List.mem_cons] at h
    push_neg at h
    have hstep : findById (triggerStep now env db c).1 i = findById db i := by
      unfold triggerStep
      dsimp only
      split <;>
        rw [findById_update_ne _ _ _ _ (by intro x; rfl) (fun hh => h.1 hh.symm),
          findById_update_ne _ _ _ _ (by intro x; rfl) (fun hh => h.1 hh.symm)]
    show findById (triggerBatch now env (triggerStep now env db c).1 rest).1 i
        = findById db i
    rw [ih _ h.2, hstep]

theorem pollStep_map_id (now : Int) (env : String → PollHttp)
    (dateEnv : String → Int) (db : List Call) (c : Call) :
    (pollStep now env dateEnv db c).1.map Call.id = db.map Call.id := by
  unfold pollStep
  rcases c.runId with _ | rid
  · rfl
  · simp only []
    split
    · rfl
    · rcases pollRunStatus (env rid) with _ | body
      · rfl
      · simp only []
        split
        · exact updateCall_map_id _ _ _ (fun x => rfl)
        · split
          · exact updateCall_map_id _ _ _ (fun x => rfl)
          · rfl

theorem pollStep_count (now : Int) (env : String → PollHttp)
    (dateEnv : String → Int) (db : List Call) (c : Call) :
    countByStatus (pollStep now env dateEnv db c).1 .RUNNING ≤
      countByStatus db .RUNNING := by
  unfold pollStep
  rcases c.runId with _ | rid
  · exact Nat.le_refl _
  · simp only []
    split
    · exact Nat.le_refl _
    · rcases pollRunStatus (env rid) with _ | body
      · exact Nat.le_refl _
      · simp only []
        split
        · exact countRunning_update_not_running _ _ _ (fun x => by simp)
        · split
          · rename_i hns
            exact countRunning_update_not_running _ _ _ (fun x => by simpa using hns)
          · exact Nat.le_refl _

theorem pollStep_find_untouched (now : Int) (env : String → PollHttp)
    (dateEnv : String → Int) (db : List Call) (c : Call) (i : Nat)
    (h : c.id ≠ i) :
    findById (pollStep now env dateEnv db c).1 i = findById db i := by
  unfold pollStep
  rcases c.runId with _ | rid
  · rfl
  · simp only []
    split
    · rfl
    · rcases pollRunStatus (env rid) with _ | body
      · rfl
      · simp only []
        split
        · exact findById_update_ne _ _ _ _ (fun x => rfl) h
        · split
          · exact findById_update_ne _ _ _ _ (fun x => rfl) h
          · rfl

theorem pollBatch_map_id (now : Int) (env : String → PollHttp)
    (dateEnv : String → Int) (batch : List Call) (db : List Call) :
    (pollBatch now env dateEnv db batch).1.map Call.id = db.map Call.id := by
  induction batch generalizing db with
  | nil => rfl
  | cons c rest ih =>
    show (pollBatch now env dateEnv (pollStep now env dateEnv db c).1 rest).1.map
        Call.id = db.map Call.id
    rw [ih, pollStep_map_id]

theorem pollBatch_count (now : Int) (env : String → PollHttp)
    (dateEnv : String → Int) (batch : List Call) (db : List Call) :
    countByStatus (pollBatch now env dateEnv db batch).1 .RUNNING ≤
      countByStatus db .RUNNING := by
  induction batch generalizing db with
  | nil => exact Nat.le_refl _
  | cons c rest ih =>
    calc countByStatus (pollBatch now env dateEnv
          (pollStep now env dateEnv db c).1 rest).1 .RUNNING
        ≤ countByStatus (pollStep now env dateEnv db c).1 .RUNNING :=
          ih (pollStep now env dateEnv db c).1
      _ ≤ countByStatus db .RUNNING := pollStep_count now env dateEnv db c

theorem pollBatch_find_untouched (now : Int) (env : String → PollHttp)
    (dateEnv : String → Int) (batch : List Call) (db : List Call) (i : Nat)
    (h : i ∉ batch.map Call.id) :
    findById (pollBatch now env dateEnv db batch).1 i = findById db i := by
  induction batch generalizing db with
  | nil => rfl
  | cons c rest ih =>
    simp only [List.map_cons, List.mem_cons] at h
    push_neg at h
    show findById (pollBatch now env dateEnv
        (pollStep now env dateEnv db c).1 rest).1 i = findById db i
    rw [ih _ h.2, pollStep_find_untouched _ _ _ _ _ _ (fun hh => h.1 hh.symm)]

/-! ## Invariant-preservation lemmas -/

theorem statusMapLookup_ne_pending (s : String) :
    statusMapLookup s ≠ .PENDING := by
  unfold statusMapLookup
  split
  · decide
  split
  · decide
  split
  · decide
  split
  · decide
  split
  all_goals decide

theorem updateCall_inv (l : List Call) (i : Nat) (f : Call → Call)
    (hl : ∀ c ∈ l, CallInv c) (hf : ∀ c, CallInv c → CallInv (f c)) :
    ∀ c ∈ updateCall l i f, CallInv c := by
  intro c hc
  simp only [updateCall, List.mem_map] at hc
  obtain ⟨a, ha, rfl⟩ := hc
  by_cases h : a.id = i
  · simpa [h] using hf a (hl a ha)
  · simpa [h] using hl a ha

theorem triggerStep_inv (now : Int) (env : Nat → TriggerHttp)
    (db : List Call) (c : Call) (hl : ∀ x ∈ db, CallInv x) :
    ∀ x ∈ (triggerStep now env db c).1, CallInv x := by
  unfold triggerStep
  dsimp only
  have h1 : ∀ x ∈ updateCall db c.id
      (fun x => { x with triggeredAt := some now }), CallInv x :=
    updateCall_inv _ _ _ hl (by intro x hx; exact hx)
  split
  · rename_i hcond
    refine updateCall_inv _ _ _ h1 ?_
    intro x _
    constructor
    · intro h; simp at h
    · intro _
      simp only [Bool.and_eq_true] at hcond
      rcases hres : (triggerCall (env c.id)).runId with _ | r
      · rw [hres] at hcond; simp [optStrTruthy] at hcond
      · simp [hres]
  · refine updateCall_inv _ _ _ h1 ?_
    intro x _
    exact ⟨fun h => by simp at h, fun h => by simp at h⟩

theorem triggerBatch_inv (now : Int) (env : Nat → TriggerHttp)
    (batch : List Call) (db : List Call) (hl : ∀ x ∈ db, CallInv x) :
    ∀ x ∈ (triggerBatch now env db batch).1, CallInv x := by
  induction batch generalizing db with
  | nil => exact hl
  | cons c rest ih =>
    exact ih (triggerStep now env db c).1 (triggerStep_inv now env db c hl)

theorem pollStep_inv (now : Int) (env : String → PollHttp)
    (dateEnv : String → Int) (db : List Call) (c : Call)
    (hl : ∀ x ∈ db, CallInv x) :
    ∀ x ∈ (pollStep now env dateEnv db c).1, CallInv x := by
  unfold pollStep
  rcases c.runId with _ | rid
  · exact hl
  · dsimp only
    split
    · exact hl
    · rcases pollRunStatus (env rid) with _ | body
      · exact hl
      · dsimp only
        split
        · refine updateCall_inv _ _ _ hl ?_
          intro x _
          exact ⟨fun h => by simp at h, fun h => by simp at h⟩
        · split
          · rename_i hns
            refine updateCall_inv _ _ _ hl ?_
            intro x _
            constructor
            · intro h
              exact absurd h (statusMapLookup_ne_pending _)
            · intro h
              exact absurd h hns
          · exact hl

theorem pollBatch_inv (now : Int) (env : String → PollHttp)
    (dateEnv : String → Int) (batch : List Call) (db : List Call)
    (hl : ∀ x ∈ db, CallInv x) :
    ∀ x ∈ (pollBatch now env dateEnv db batch).1, CallInv x := by
  induction batch generalizing db with
  | nil => exact hl
  | cons c rest ih =>
    exact ih (pollStep now env dateEnv db c).1
      (pollStep_inv now env dateEnv db c hl)

theorem cleanup_inv (calls : List Call) (now now2 : Int)
    (hl : ∀ c ∈ calls, CallInv c) :
    ∀ c ∈ (cleanupZombieRunningCalls calls now now2).1, CallInv c := by
  unfold cleanupZombieRunningCalls
  dsimp only
  split
  · exact hl
  · intro c hc
    simp only [List.mem_map] at hc
    obtain ⟨a, ha, rfl⟩ := hc
    split
    · exact ⟨fun h => by simp at h, fun h => by simp at h⟩
    · exact hl a ha

/-! ## Selection lemmas -/

theorem mem_insertByCreatedAt (c a : Call) (l : List Call) :
    a ∈ insertByCreatedAt c l ↔ a = c ∨ a ∈ l := by
  induction l with
  | nil => simp [insertByCreatedAt]
  | cons x xs ih =>
    unfold insertByCreatedAt
    split
    · simp only [List.mem_cons]
    · simp only [List.mem_cons, ih]
      tauto

theorem mem_sortByCreatedAt (a : Call) (l : List Call) :
    a ∈ sortByCreatedAt l ↔ a ∈ l := by
  induction l with
  | nil => simp [sortByCreatedAt]
  | cons c cs ih =>
    simp [sortByCreatedAt, mem_insertByCreatedAt, ih, List.mem_cons]

theorem takePendingCalls_spec (calls : List Call) (n : Nat) :
    ∀ c ∈ takePendingCalls calls n, c ∈ calls ∧ c.status = .PENDING := by
  intro c hc
  unfold takePendingCalls at hc
  have h1 := List.take_subset _ _ hc
  rw [mem_sortByCreatedAt] at h1
  have h2 := List.mem_filter.mp h1
  exact ⟨h2.1, by simpa using h2.2⟩

theorem takePendingCalls_length (calls : List Call) (n : Nat) :
    (takePendingCalls calls n).length ≤ n := by
  unfold takePendingCalls
  rw [List.length_take]
  omega

theorem pollSelection_map_id_nodup (l : List Call)
    (hnd : (l.map Call.id).Nodup) :
    ((pollSelection l).map Call.id).Nodup :=
  List.Nodup.sublist ((List.filter_sublist _).map _) hnd

theorem pollBatch_append (now : Int) (env : String → PollHttp)
    (dateEnv : String → Int) (l1 l2 : List Call) (db : List Call) :
    (pollBatch now env dateEnv db (l1 ++ l2)).1 =
      (pollBatch now env dateEnv (pollBatch now env dateEnv db l1).1 l2).1 := by
  induction l1 generalizing db with
  | nil => rfl
  | cons c rest ih =>
    simp only [List.cons_append, pollBatch]
    exact ih _

/-! ## Loop-stepping helper lemmas -/

theorem runLoop_err_progress (errObs : CycleObs) (hthrow : errObs.throws = true) :
    ∀ (n : Nat) (t : LoopState), t.shouldStop = false → t.isRunning = true →
      t.consecutiveErrors + n < MAX_CONSECUTIVE_ERRORS →
      (runLoopFrom t (List.replicate n errObs)).1.isRunning = true ∧
      (runLoopFrom t (List.replicate n errObs)).1.consecutiveErrors =
        t.consecutiveErrors + n ∧
      (runLoopFrom t (List.replicate n errObs)).2 = none := by
  intro n
  induction n with
  | zero =>
    intro t h1 h2 h3
    exact ⟨h2, rfl, rfl⟩
  | succ n ih =>
    intro t h1 h2 h3
    have h3' : t.consecutiveErrors + (n + 1) < 5 := h3
    rw [List.replicate_succ]
    unfold runLoopFrom loopIter
    rw [if_neg (by simp [h1])]
    dsimp only
    simp only [hthrow, if_true]
    rw [if_neg (show ¬(MAX_CONSECUTIVE_ERRORS ≤ t.consecutiveErrors + 1) by
      show ¬(5 ≤ t.consecutiveErrors + 1); omega)]
    dsimp only
    have := ih { t with cycleCount := t.cycleCount + 1,
                        consecutiveErrors := t.consecutiveErrors + 1 }
      h1 h2 (by show t.consecutiveErrors + 1 + n < MAX_CONSECUTIVE_ERRORS; omega)
    obtain ⟨a, b, cc⟩ := this
    refine ⟨a, ?_, cc⟩
    rw [b]
    show t.consecutiveErrors + 1 + n = t.consecutiveErrors + (n + 1)
    omega

theorem runLoop_err_breaks (errObs : CycleObs) (hthrow : errObs.throws = true) :
    ∀ (n : Nat) (t : LoopState), t.shouldStop = false →
      t.consecutiveErrors + n = MAX_CONSECUTIVE_ERRORS → 1 ≤ n →
      (runLoopFrom t (List.replicate n errObs)).2 = some .circuitBreaker ∧
      (runLoopFrom t (List.replicate n errObs)).1.isRunning = false ∧
      (runLoopFrom t (List.replicate n errObs)).1.consecutiveErrors =
        MAX_CONSECUTIVE_ERRORS := by
  intro n
  induction n with
  | zero => intro t _ _ h; omega
  | succ n ih =>
    intro t h1 h2 _
    have h2' : t.consecutiveErrors + (n + 1) = 5 := h2
    rw [List.replicate_succ]
    unfold runLoopFrom loopIter
    rw [if_neg (by simp [h1])]
    dsimp only
    simp only [hthrow, if_true]
    by_cases hn : n = 0
    · subst hn
      rw [if_pos (show MAX_CONSECUTIVE_ERRORS ≤ t.consecutiveErrors + 1 by
        show 5 ≤ t.consecutiveErrors + 1; omega)]
      dsimp only
      refine ⟨rfl, rfl, ?_⟩
      show t.consecutiveErrors + 1 = MAX_CONSECUTIVE_ERRORS
      show t.consecutiveErrors + 1 = 5
      omega
    · rw [if_neg (show ¬(MAX_CONSECUTIVE_ERRORS ≤ t.consecutiveErrors + 1) by
        show ¬(5 ≤ t.consecutiveErrors + 1); omega)]
      dsimp only
      exact ih { t with cycleCount := t.cycleCount + 1,
                        consecutiveErrors := t.consecutiveErrors + 1 }
        h1 (by show t.consecutiveErrors + 1 + n = MAX_CONSECUTIVE_ERRORS
               show t.consecutiveErrors + 1 + n = 5; omega)
        (by omega)

/-! ## Claim theorems: the worker loop -/

/-- C3 counterexample: a cycle whose only exception is the post-cycle
`getWorkStatus` (thrown after `consecutiveErrors = 0` already ran in the
same try) leaves the counter at 1, not entry+1 — here an entry value of 3
drops to 1 instead of rising to 4 — and five consecutive such
exception-raising cycles leave the loop alive with `getWorkerStatus`
still reporting running and healthy, refuting the claim as stated. -/
theorem post_cycle_throw_counterexample :
    (loopIter ⟨true, false, 3, 9⟩
      ⟨true, false, 1, 0, false, true⟩).state.consecutiveErrors = 1 ∧
    ¬((loopIter ⟨true, false, 3, 9⟩
        ⟨true, false, 1, 0, false, true⟩).state.consecutiveErrors = 3 + 1) ∧
    (runLoopFrom ⟨true, false, 0, 0⟩
      (List.replicate 5 ⟨true, false, 1, 0, false, true⟩)).2 = none ∧
    (runLoopFrom ⟨true, false, 0, 0⟩
      (List.replicate 5 ⟨true, false, 1, 0, false, true⟩)).1.isRunning =
      true ∧
    getWorkerStatus (runLoopFrom ⟨true, false, 0, 0⟩
      (List.replicate 5 ⟨true, false, 1, 0, false, true⟩)).1 =
      ⟨true, true⟩ := by decide

/-- C3 (amended): a cycle exception raised before the post-cycle counter
reset — in the active-campaign re-check, the work-status read, or
`processQueueCycle` itself — increments the consecutive-error counter, and
starting from a zero counter, after exactly `MAX_CONSECUTIVE_ERRORS` (= 5)
consecutive such exceptions the loop terminates, `getWorkerStatus` then
reporting `running = false` and `healthy = false`, while after only 4 the
loop is still running; any fully successful cycle resets the counter to
zero.  An exception in the post-cycle `getWorkStatus`, however, strikes
after the reset inside the same try, so that cycle ends with the counter
at 1 regardless of its entry value — such cycles alone never trip the
breaker. -/
theorem circuit_breaker_behavior (s : LoopState)
    (errObs goodObs postObs : CycleObs)
    (hrun : s.isRunning = true) (hstop : s.shouldStop = false)
    (herr : s.consecutiveErrors = 0)
    (hthrow : errObs.throws = true)
    (hok : goodObs.throws = false) (hsame : goodObs.campaignSame = true)
    (hok2 : goodObs.throwsAfterCycle = false)
    (hnotIdle : ¬(goodObs.isPaused = true ∧ goodObs.running = 0))
    (hnotDone : ¬(goodObs.isPaused = false ∧ goodObs.pending = 0 ∧
      goodObs.running = 0))
    (hpok : postObs.throws = false) (hpsame : postObs.campaignSame = true)
    (hpthrow : postObs.throwsAfterCycle = true)
    (hpnotIdle : ¬(postObs.isPaused = true ∧ postObs.running = 0))
    (hpnotDone : ¬(postObs.isPaused = false ∧ postObs.pending = 0 ∧
      postObs.running = 0)) :
    (∀ t : LoopState, (loopIter t errObs).state.consecutiveErrors =
        t.consecutiveErrors + 1) ∧
    (∀ t : LoopState, (loopIter t goodObs).state.consecutiveErrors = 0 ∧
        (loopIter t goodObs).ranCycle = true) ∧
    (∀ t : LoopState, (loopIter t postObs).state.consecutiveErrors = 1 ∧
        (loopIter t postObs).ranCycle = true ∧
        (loopIter t postObs).exit = none) ∧
    (runLoopFrom s (List.replicate 5 errObs)).2 = some .circuitBreaker ∧
    getWorkerStatus (runLoopFrom s (List.replicate 5 errObs)).1 =
      ⟨false, false⟩ ∧
    (runLoopFrom s (List.replicate 4 errObs)).2 = none ∧
    (runLoopFrom s (List.replicate 4 errObs)).1.isRunning = true := by
  have hbrk := runLoop_err_breaks errObs hthrow 5 s hstop
    (by show s.consecutiveErrors + 5 = 5; omega) (by omega)
  have hprog := runLoop_err_progress errObs hthrow 4 s hstop hrun
    (by show s.consecutiveErrors + 4 < 5; omega)
  refine ⟨?_, ?_, ?_, hbrk.1, ?_, hprog.2.2, hprog.1⟩
  · intro t
    unfold loopIter
    dsimp only
    simp only [hthrow, if_true]
    split <;> rfl
  · intro t
    unfold loopIter
    dsimp only
    by_cases hip : goodObs.isPaused <;>
      by_cases hru : goodObs.running = 0 <;>
      by_cases hpe : goodObs.pending = 0 <;>
      simp_all
  · intro t
    unfold loopIter
    dsimp only
    by_cases hip : postObs.isPaused <;>
      by_cases hru : postObs.running = 0 <;>
      by_cases hpe : postObs.pending = 0 <;>
      simp_all [MAX_CONSECUTIVE_ERRORS]
  · unfold getWorkerStatus
    rw [hbrk.2.1]
    simp

/-- C3 witness: a concrete run of pre-reset exceptions hitting the circuit
breaker. -/
theorem circuit_breaker_behavior_witness :
    (runLoopFrom ⟨true, false, 0, 0⟩
        (List.replicate 5 ⟨true, false, 0, 0, true, false⟩)).2 =
      some .circuitBreaker ∧
    getWorkerStatus (runLoopFrom ⟨true, false, 0, 0⟩
        (List.replicate 5 ⟨true, false, 0, 0, true, false⟩)).1 =
      ⟨false, false⟩ :=
  have h := circuit_breaker_behavior ⟨true, false, 0, 0⟩
    ⟨true, false, 0, 0, true, false⟩ ⟨true, false, 3, 0, false, false⟩
    ⟨true, false, 1, 0, false, true⟩
    rfl rfl rfl rfl rfl rfl rfl (by decide) (by decide)
    rfl rfl rfl (by decide) (by decide)
  ⟨h.2.2.2.1, h.2.2.2.2.1⟩

/-- C4 counterexample: at startup the dispatcher observes the campaign
paused with zero RUNNING (and zero PENDING) calls, and nevertheless marks
the campaign COMPLETED and stops instead of staying alive. -/
theorem startup_paused_zero_marks_completed :
    workerStartupDecision ⟨0, 0, true⟩ = .markCompletedAndStop ∧
    workerStartupDecision ⟨0, 0, true⟩ ≠ .enterLoop := by decide

/-- C4 (amended): on any loop cycle, observing the campaign paused with
zero RUNNING calls neither terminates the loop nor marks the campaign
COMPLETED — the loop sleeps the paused-check interval and re-checks; within
the loop the campaign is marked COMPLETED (and only then does that branch
break) exactly when it is not paused and both counts are zero.  At startup,
however, the campaign is marked COMPLETED and the loop never entered
whenever pending and running are both zero, regardless of the pause flag;
with any work present the loop is entered. -/
theorem paused_idle_cycle_behavior (s : LoopState) (obs : CycleObs)
    (hth : obs.throws = false) (hsame : obs.campaignSame = true) :
    (obs.isPaused = true → obs.running = 0 →
      (loopIter s obs).exit = none ∧
      (loopIter s obs).markedCompleted = false ∧
      (loopIter s obs).sleptMs = some PAUSED_CHECK_INTERVAL) ∧
    ((loopIter s obs).markedCompleted = true ↔
      obs.isPaused = false ∧ obs.pending = 0 ∧ obs.running = 0) ∧
    ((loopIter s obs).markedCompleted = true →
      (loopIter s obs).exit = some .completed) ∧
    (obs.pending ≠ 0 ∨ obs.running ≠ 0 →
      workerStartupDecision ⟨obs.pending, obs.running, obs.isPaused⟩ =
        .enterLoop) := by
  refine ⟨?_, ?_, ?_, ?_⟩ <;>
  · simp only [loopIter, workerStartupDecision]
    by_cases hip : obs.isPaused <;>
      by_cases hru : obs.running = 0 <;>
      by_cases hpe : obs.pending = 0 <;>
      by_cases hta : obs.throwsAfterCycle <;>
      simp_all [MAX_CONSECUTIVE_ERRORS]

/-- C4 witness: a paused cycle with pending work sleeps and stays alive. -/
theorem paused_idle_cycle_behavior_witness :
    (loopIter ⟨true, false, 0, 0⟩ ⟨true, true, 3, 0, false, false⟩).exit = none ∧
    (loopIter ⟨true, false, 0, 0⟩ ⟨true, true, 3, 0, false, false⟩).markedCompleted =
      false ∧
    (loopIter ⟨true, false, 0, 0⟩ ⟨true, true, 3, 0, false, false⟩).sleptMs =
      some PAUSED_CHECK_INTERVAL :=
  (paused_idle_cycle_behavior ⟨true, false, 0, 0⟩ ⟨true, true, 3, 0, false, false⟩
    rfl rfl).1 rfl rfl

/-- C10: the paused-with-zero-RUNNING branch resets the consecutive-error
counter to zero before sleeping, without executing a dispatch/poll cycle
and without leaving the loop — pausing clears the circuit breaker's
accumulated count without any successful cycle. -/
theorem paused_idle_resets_error_counter (s : LoopState) (obs : CycleObs)
    (hth : obs.throws = false) (hsame : obs.campaignSame = true)
    (hp : obs.isPaused = true) (hr : obs.running = 0) :
    (loopIter s obs).state.consecutiveErrors = 0 ∧
    (loopIter s obs).ranCycle = false ∧
    (loopIter s obs).exit = none ∧
    (loopIter s obs).sleptMs = some PAUSED_CHECK_INTERVAL := by
  unfold loopIter
  simp [hth, hsame, hp, hr]

/-- C10 witness: a degraded loop (4 accumulated errors) observing the
paused-idle state comes out with a zeroed counter. -/
theorem paused_idle_resets_error_counter_witness :
    (loopIter ⟨true, false, 4, 7⟩ ⟨true, true, 2, 0, false, false⟩).state.consecutiveErrors
        = 0 ∧
    (loopIter ⟨true, false, 4, 7⟩ ⟨true, true, 2, 0, false, false⟩).ranCycle = false ∧
    (loopIter ⟨true, false, 4, 7⟩ ⟨true, true, 2, 0, false, false⟩).exit = none ∧
    (loopIter ⟨true, false, 4, 7⟩ ⟨true, true, 2, 0, false, false⟩).sleptMs =
      some PAUSED_CHECK_INTERVAL :=
  paused_idle_resets_error_counter ⟨true, false, 4, 7⟩ ⟨true, true, 2, 0, false, false⟩
    rfl rfl rfl rfl

/-! ## Claim theorems: the reaper -/

/-- C8: the reaper marks every RUNNING call whose age — measured from its
trigger timestamp, or from its last-update timestamp when the trigger
timestamp is absent — has reached the fixed timeout as FAILED with outcome
SYSTEM_TIMEOUT, a completion timestamp and the descriptive error message;
the cleanup always runs at loop startup and the periodic cleanup runs
exactly on every 20th cycle. -/
theorem reaper_marks_stale_calls (calls : List Call) (now now2 : Int)
    (c : Call) (hc : c ∈ calls)
    (hz : isZombie (now - RUNNING_CALL_TIMEOUT_MS) c = true) :
    { c with status := .FAILED, callOutcome := some "SYSTEM_TIMEOUT",
             completedAt := some now2,
             errorMessage := some zombieErrorMessage }
      ∈ (cleanupZombieRunningCalls calls now now2).1 ∧
    (∀ o : StartupObs, (runWorkerStartup o).ranCleanup = true) ∧
    (∀ (s : LoopState) (obs : CycleObs),
      (loopIter s obs).ranCleanup =
        ((s.cycleCount + 1) % ZOMBIE_CLEANUP_EVERY_CYCLES == 0)) := by
  refine ⟨?_, fun o => rfl, ?_⟩
  · unfold cleanupZombieRunningCalls
    dsimp only
    have hmem : c.id ∈
        (calls.filter (isZombie (now - RUNNING_CALL_TIMEOUT_MS))).map Call.id :=
      List.mem_map_of_mem _ (List.mem_filter.mpr ⟨hc, hz⟩)
    have hne : ¬(((calls.filter
        (isZombie (now - RUNNING_CALL_TIMEOUT_MS))).map Call.id).length = 0) := by
      intro h0
      rw [List.length_eq_zero] at h0
      rw [h0] at hmem
      cases hmem
    rw [if_neg hne]
    refine List.mem_map.mpr ⟨c, hc, ?_⟩
    rw [if_pos hmem]
  · intro s obs
    unfold loopIter
    dsimp only
    split
    · split <;> rfl
    · split
      · rfl
      · split
        · rfl
        · split
          · rfl
          · split
            · split <;> rfl
            · rfl

/-- C8 witness: a call RUNNING since time 0 is reaped at the timeout. -/
theorem reaper_marks_stale_calls_witness :
    ({ id := 1, status := CallStatus.FAILED, runId := some "r",
       attemptNumber := 1, createdAt := 0, updatedAt := 0,
       triggeredAt := some 0, completedAt := some 7,
       callOutcome := some "SYSTEM_TIMEOUT", callDuration := none,
       callSummary := none, errorMessage := some zombieErrorMessage,
       metadata := none } : Call)
      ∈ (cleanupZombieRunningCalls
          [{ id := 1, status := CallStatus.RUNNING, runId := some "r",
             attemptNumber := 1, createdAt := 0, updatedAt := 0,
             triggeredAt := some 0, completedAt := none, callOutcome := none,
             callDuration := none, callSummary := none, errorMessage := none,
             metadata := none }]
          RUNNING_CALL_TIMEOUT_MS 7).1 :=
  (reaper_marks_stale_calls
    [{ id := 1, status := CallStatus.RUNNING, runId := some "r",
       attemptNumber := 1, createdAt := 0, updatedAt := 0,
       triggeredAt := some 0, completedAt := none, callOutcome := none,
       callDuration := none, callSummary := none, errorMessage := none,
       metadata := none }]
    RUNNING_CALL_TIMEOUT_MS 7
    { id := 1, status := CallStatus.RUNNING, runId := some "r",
      attemptNumber := 1, createdAt := 0, updatedAt := 0,
      triggeredAt := some 0, completedAt := none, callOutcome := none,
      callDuration := none, callSummary := none, errorMessage := none,
      metadata := none }
    (by decide) (by decide)).1

/-! ## Claim theorems: the outcome classifier -/

/-- C5: whenever the deep search finds no classification anywhere in the
response, the extracted outcome is COMPLETED_UNKNOWN — except that a
duration of exactly zero together with a terminal run status of
`completed` or `canceled` yields CONNECT_FAILED, taking precedence over
the generic unknown fallback. -/
theorem extract_outcome_fallback (resp : JValue) (runStatus : String)
    (h : (deepSearchForOutcome resp).callOutcome = none) :
    (extractOutcome resp runStatus).callOutcome =
      if (deepSearchForOutcome resp).callDuration = some 0 ∧
          (runStatus = "completed" ∨ runStatus = "canceled")
      then "CONNECT_FAILED" else "COMPLETED_UNKNOWN" := by
  unfold extractOutcome
  dsimp only
  rw [h]
  by_cases hd : (deepSearchForOutcome resp).callDuration = some 0
  · by_cases hs : runStatus = "completed"
    · simp [hd, hs, optStrTruthy]
    · by_cases hc : runStatus = "canceled"
      · simp [hd, hs, hc, optStrTruthy]
      · simp [hd, hs, hc, optStrTruthy]
  · simp [hd, optStrTruthy]

/-- C5 witness: the empty object gives COMPLETED_UNKNOWN, and a zero
duration with terminal status `completed` gives CONNECT_FAILED. -/
theorem extract_outcome_fallback_witness :
    (deepSearchForOutcome (JValue.obj [("duration", JValue.num 0)])).callOutcome
        = none ∧
    (extractOutcome (JValue.obj [("duration", JValue.num 0)])
        "completed").callOutcome = "CONNECT_FAILED" ∧
    (extractOutcome (JValue.obj []) "completed").callOutcome =
      "COMPLETED_UNKNOWN" :=
  ⟨by decide,
   by rw [extract_outcome_fallback _ _ (by decide)]; decide,
   by rw [extract_outcome_fallback _ _ (by decide)]; decide⟩

/-- C6 counterexample: the input "cancel" contains exactly one keyword of
the spec's controlled vocabulary ('cancel' → SYSTEM_CANCELED) yet
classifies to nothing (the code only tests "canceled"/"cancelled"); and
"voicemail rejected" contains exactly one spec keyword ('voicemail' →
VOICEMAIL) yet classifies to DECLINED, because the code's extra synonym
"rejected" sits in an earlier branch. -/
theorem classify_vocab_counterexample :
    ((specClaimVocab.filter
        (fun p => jsIncludes (jsNormalize "cancel") p.1)).map Prod.snd =
      ["SYSTEM_CANCELED"]) ∧
    classifyOutcome "cancel" = none ∧
    ((specClaimVocab.filter
        (fun p => jsIncludes (jsNormalize "voicemail rejected") p.1)).map
        Prod.snd = ["VOICEMAIL"]) ∧
    classifyOutcome "voicemail rejected" = some "DECLINED" := by decide

/-- C6 (amended): the classifier lowercases and trims its input and tests
substring containment against the code's full keyword table in its
priority order (canceled/cancelled → SYSTEM_CANCELED, then
promise/will_pay/will pay/payment_promised → PAYMENT_PROMISED, then
decline/refuse/rejected → DECLINED, then dispute → DISPUTED, then
no_answer/no answer/unanswered/not_reached/not reached → NO_ANSWER, then
voicemail/voice_mail/vm → VOICEMAIL, then wrong_number/wrong number/invalid
→ WRONG_NUMBER, then callback/call_back/call back → CALLBACK_REQUESTED):
for every input whose normalized form contains some keyword of one outcome
code and no keyword of any other code, classifyOutcome returns exactly that
code. -/
theorem classify_full_vocab (s : String) (kw code : String)
    (hmem : (kw, code) ∈ codeVocab)
    (hin : jsIncludes (jsNormalize s) kw = true)
    (hout : ∀ p ∈ codeVocab, p.2 ≠ code →
      jsIncludes (jsNormalize s) p.1 = false) :
    classifyOutcome s = some code := by
  by_cases hv : jsNormalize s = ""
  · rw [hv] at hin
    fin_cases hmem <;> exact absurd hin (by decide)
  · have hne : (jsNormalize s == "") = false := by simpa using hv
    simp only [codeVocab, List.forall_mem_cons, List.forall_mem_nil,
      and_true] at hout
    fin_cases hmem <;> simp_all [classifyOutcome]

/-- C6 witness: a case-insensitive match on 'will pay'. -/
theorem classify_full_vocab_witness :
    classifyOutcome "Customer WILL pay next week" = some "PAYMENT_PROMISED" :=
  classify_full_vocab "Customer WILL pay next week" "will pay"
    "PAYMENT_PROMISED" (by decide) (by decide) (by decide)

/-- C9 counterexample: two responses identical except for whether the
classification value matches the keyword table return different durations —
when the classification matches, the early return drops the duration found
in the nested object, so the duration is not collected independently of the
classification. -/
theorem deep_search_duration_dependency :
    deepSearchForOutcome
        (.obj [("classification", .str "promise"),
               ("nested", .obj [("duration", .num 5)])]) =
      ⟨some "PAYMENT_PROMISED", none, none⟩ ∧
    deepSearchForOutcome
        (.obj [("classification", .str "zzz"),
               ("nested", .obj [("duration", .num 5)])]) =
      ⟨none, some 5, none⟩ := by decide

theorem deepSearchGo_obj (fuel : Nat) (fields : List (String × JValue)) :
    deepSearchGo (fuel + 1) (.obj fields) =
      (if optStrTruthy (scanClassification fields classificationFields) then
        (⟨scanClassification fields classificationFields,
          scanDuration fields durationFields,
          scanSummary fields summaryFields⟩ : SearchResult)
      else
        fields.foldl
          (fun acc p =>
            if optStrTruthy acc.callOutcome then acc
            else if isContainer p.2 then
              mergeNested acc (deepSearchGo fuel p.2)
            else acc)
          ⟨scanClassification fields classificationFields,
           scanDuration fields durationFields,
           scanSummary fields summaryFields⟩) := rfl

theorem deepSearch_foldl_atomic (fuel : Nat)
    (fields : List (String × JValue))
    (hflat : ∀ p ∈ fields, isContainer p.2 = false) (acc : SearchResult) :
    fields.foldl
      (fun acc p =>
        if optStrTruthy acc.callOutcome then acc
        else if isContainer p.2 then mergeNested acc (deepSearchGo fuel p.2)
        else acc)
      acc = acc := by
  induction fields generalizing acc with
  | nil => rfl
  | cons p rest ih =>
    rw [List.foldl_cons]
    have hp := hflat p (List.mem_cons_self _ _)
    have hstep : (if optStrTruthy acc.callOutcome then acc
        else if isContainer p.2 then mergeNested acc (deepSearchGo fuel p.2)
        else acc) = acc := by
      rw [hp]; simp
    rw [hstep]
    exact ih (fun q hq => hflat q (List.mem_cons_of_mem _ hq)) acc

/-- C9 (amended): at a single object level, summary and duration are looked
up through their own candidate-field lists, independently of whether a
classification was found at that level: for every flat object (no nested
objects or arrays) the search result is exactly the triple of the three
independent per-level scans, so either of summary/duration can be present
without the other and without a classification.  (Across levels the
independence fails: once a classification is adopted the search returns
early and drops durations or summaries in unexplored branches, as the
counterexample shows.) -/
theorem flat_object_scan_independence (fields : List (String × JValue))
    (hflat : ∀ p ∈ fields, isContainer p.2 = false) :
    deepSearchForOutcome (.obj fields) =
      ⟨scanClassification fields classificationFields,
       scanDuration fields durationFields,
       scanSummary fields summaryFields⟩ := by
  show deepSearchGo (10 + 1) (.obj fields) = _
  rw [deepSearchGo_obj]
  split
  · rfl
  · rw [deepSearch_foldl_atomic 10 fields hflat]

/-- C9 witness: a flat object with a duration and no classification. -/
theorem flat_object_scan_independence_witness :
    deepSearchForOutcome
        (.obj [("status", .str "completed"), ("duration", .num 3)]) =
      ⟨none, some 3, none⟩ := by
  rw [flat_object_scan_independence
    [("status", .str "completed"), ("duration", .num 3)] (by decide)]
  decide

/-! ## The poll phase's effect on a single RUNNING call -/

theorem pollPhase_effect (pollEnv : String → PollHttp) (dateEnv : String → Int)
    (now : Int) (X : List Call) (c : Call) (rid : String)
    (hndX : (X.map Call.id).Nodup) (hcX : findById X c.id = some c)
    (hst : c.status = .RUNNING) (hrid : c.runId = some rid) (hne : rid ≠ "") :
    ((pollEnv rid = .httpError ∨ pollEnv rid = .networkError) →
      findById (pollBatch now pollEnv dateEnv X (pollSelection X)).1 c.id =
        some c) ∧
    (pollEnv rid = .notFound404 →
      findById (pollBatch now pollEnv dateEnv X (pollSelection X)).1 c.id =
        some { c with status := .FAILED,
                      callOutcome := some "CALL_LOST_BY_PROVIDER",
                      completedAt := some now,
                      errorMessage := some
                        ("Run not found at provider (404) for runId=" ++ rid) }) := by
  have hcmem : c ∈ X := List.mem_of_find?_eq_some hcX
  have hcsel : c ∈ pollSelection X :=
    List.mem_filter.mpr ⟨hcmem, by simp [hst, hrid]⟩
  obtain ⟨l1, l2, hsplit⟩ := List.append_of_mem hcsel
  have hndsel := pollSelection_map_id_nodup X hndX
  rw [hsplit, List.map_append, List.map_cons] at hndsel
  have hparts := List.nodup_append.mp hndsel
  have h1 : c.id ∉ l1.map Call.id := by
    intro hmem
    exact hparts.2.2 hmem (List.mem_cons_self _ _)
  have h2 : c.id ∉ l2.map Call.id := (List.nodup_cons.mp hparts.2.1).1
  have hdb1 : findById (pollBatch now pollEnv dateEnv X l1).1 c.id = some c := by
    rw [pollBatch_find_untouched _ _ _ _ _ _ h1]; exact hcX
  constructor
  · intro henv
    have hstep : (pollStep now pollEnv dateEnv
        (pollBatch now pollEnv dateEnv X l1).1 c).1 =
        (pollBatch now pollEnv dateEnv X l1).1 := by
      unfold pollStep
      rw [hrid]
      dsimp only
      rw [if_neg (by simp [hne])]
      rcases henv with h | h <;> rw [h] <;> rfl
    rw [hsplit, pollBatch_append]
    show findById (pollBatch now pollEnv dateEnv
      (pollStep now pollEnv dateEnv (pollBatch now pollEnv dateEnv X l1).1 c).1
      l2).1 c.id = some c
    rw [pollBatch_find_untouched _ _ _ _ _ _ h2, hstep]
    exact hdb1
  · intro henv
    have hrs : runStatusOf (JValue.obj [("status", JValue.str "not_found")]) =
        "not_found" := by decide
    have hstep : (pollStep now pollEnv dateEnv
        (pollBatch now pollEnv dateEnv X l1).1 c).1 =
        updateCall (pollBatch now pollEnv dateEnv X l1).1 c.id
          (fun x => { x with
                      status := .FAILED,
                      callOutcome := some "CALL_LOST_BY_PROVIDER",
                      completedAt := some now,
                      errorMessage := some
                        ("Run not found at provider (404) for runId=" ++ rid) }) := by
      unfold pollStep
      rw [hrid]
      dsimp only
      rw [if_neg (by simp [hne]), henv]
      dsimp only [pollRunStatus]
      rw [hrs]
      rw [if_pos (by simp)]
    rw [hsplit, pollBatch_append]
    show findById (pollBatch now pollEnv dateEnv
      (pollStep now pollEnv dateEnv (pollBatch now pollEnv dateEnv X l1).1 c).1
      l2).1 c.id = some _
    rw [pollBatch_find_untouched _ _ _ _ _ _ h2, hstep,
      findById_update_self _ _ _ (by intro x; rfl), hdb1]
    rfl

/-! ## Claim theorems: the queue cycle -/

/-- C1: in every dispatch cycle the trigger phase starts at most
(ceiling − currently-RUNNING) new calls, so a RUNNING count within the
ceiling stays within the ceiling; and in degraded mode (more than 2
consecutive errors) the cycle's batch is additionally capped at 5. -/
theorem trigger_phase_respects_ceiling (maxConcurrent consecutiveErrors : Nat)
    (isPaused : Bool) (trigEnv : Nat → TriggerHttp)
    (pollEnv : String → PollHttp) (dateEnv : String → Int) (now : Int)
    (calls : List Call) (hnd : (calls.map Call.id).Nodup) :
    (processQueueCycle maxConcurrent consecutiveErrors isPaused trigEnv pollEnv
        dateEnv now calls).triggered ≤
      maxConcurrent - countByStatus calls .RUNNING ∧
    (countByStatus calls .RUNNING ≤ maxConcurrent →
      countByStatus (processQueueCycle maxConcurrent consecutiveErrors isPaused
        trigEnv pollEnv dateEnv now calls).calls .RUNNING ≤ maxConcurrent) ∧
    (consecutiveErrors > 2 →
      (processQueueCycle maxConcurrent consecutiveErrors isPaused trigEnv
        pollEnv dateEnv now calls).triggered ≤ 5) := by
  unfold processQueueCycle
  dsimp only
  split
  · rename_i hnp
    split
    · rename_i hslots
      have htl := triggerBatch_trig_le now trigEnv
        (takePendingCalls calls
          (if consecutiveErrors > 2 then
            min ((maxConcurrent : Int) -
              (countByStatus calls .RUNNING : Int)).toNat 5
          else ((maxConcurrent : Int) -
            (countByStatus calls .RUNNING : Int)).toNat)) calls
      have hpl := takePendingCalls_length calls
        (if consecutiveErrors > 2 then
          min ((maxConcurrent : Int) -
            (countByStatus calls .RUNNING : Int)).toNat 5
        else ((maxConcurrent : Int) -
          (countByStatus calls .RUNNING : Int)).toNat)
      have hcnt := triggerBatch_count now trigEnv
        (takePendingCalls calls
          (if consecutiveErrors > 2 then
            min ((maxConcurrent : Int) -
              (countByStatus calls .RUNNING : Int)).toNat 5
          else ((maxConcurrent : Int) -
            (countByStatus calls .RUNNING : Int)).toNat)) calls hnd
      have hpoll := pollBatch_count now pollEnv dateEnv
        (pollSelection (triggerBatch now trigEnv calls
          (takePendingCalls calls
            (if consecutiveErrors > 2 then
              min ((maxConcurrent : Int) -
                (countByStatus calls .RUNNING : Int)).toNat 5
            else ((maxConcurrent : Int) -
              (countByStatus calls .RUNNING : Int)).toNat))).1)
        (triggerBatch now trigEnv calls
          (takePendingCalls calls
            (if consecutiveErrors > 2 then
              min ((maxConcurrent : Int) -
                (countByStatus calls .RUNNING : Int)).toNat 5
            else ((maxConcurrent : Int) -
              (countByStatus calls .RUNNING : Int)).toNat))).1
      by_cases he : consecutiveErrors > 2
      · simp only [if_pos he] at htl hpl hcnt hpoll ⊢
        refine ⟨by omega, fun hb => by omega, fun _ => by omega⟩
      · simp only [if_neg he] at htl hpl hcnt hpoll ⊢
        refine ⟨by omega, fun hb => by omega, fun hcontra => absurd hcontra he⟩
    · rename_i hslots
      dsimp only
      have hpoll := pollBatch_count now pollEnv dateEnv (pollSelection calls)
        calls
      refine ⟨by omega, fun hb => by omega, fun _ => by omega⟩
  · rename_i hnp
    dsimp only
    have hpoll := pollBatch_count now pollEnv dateEnv (pollSelection calls)
      calls
    refine ⟨by omega, fun hb => by omega, fun _ => by omega⟩

/-- C1 witness: a cycle on a store with one PENDING and one RUNNING call,
ceiling 2, in degraded mode. -/
theorem trigger_phase_respects_ceiling_witness :
    (processQueueCycle 2 3 false (fun _ => TriggerHttp.ok (some ["w1"]))
        (fun _ => PollHttp.networkError) (fun _ => 0) 5
        [{ id := 1, status := CallStatus.PENDING, runId := none,
           attemptNumber := 1, createdAt := 0, updatedAt := 0,
           triggeredAt := none, completedAt := none, callOutcome := none,
           callDuration := none, callSummary := none, errorMessage := none,
           metadata := none },
         { id := 2, status := CallStatus.RUNNING, runId := some "r2",
           attemptNumber := 1, createdAt := 0, updatedAt := 0,
           triggeredAt := some 0, completedAt := none, callOutcome := none,
           callDuration := none, callSummary := none, errorMessage := none,
           metadata := none }]).triggered ≤ 2 - 1 ∧
    (1 ≤ 2 →
      countByStatus (processQueueCycle 2 3 false
        (fun _ => TriggerHttp.ok (some ["w1"]))
        (fun _ => PollHttp.networkError) (fun _ => 0) 5
        [{ id := 1, status := CallStatus.PENDING, runId := none,
           attemptNumber := 1, createdAt := 0, updatedAt := 0,
           triggeredAt := none, completedAt := none, callOutcome := none,
           callDuration := none, callSummary := none, errorMessage := none,
           metadata := none },
         { id := 2, status := CallStatus.RUNNING, runId := some "r2",
           attemptNumber := 1, createdAt := 0, updatedAt := 0,
           triggeredAt := some 0, completedAt := none, callOutcome := none,
           callDuration := none, callSummary := none, errorMessage := none,
           metadata := none }]).calls CallStatus.RUNNING ≤ 2) := by
  have h := trigger_phase_respects_ceiling 2 3 false
    (fun _ => TriggerHttp.ok (some ["w1"])) (fun _ => PollHttp.networkError)
    (fun _ => 0) 5
    [{ id := 1, status := CallStatus.PENDING, runId := none,
       attemptNumber := 1, createdAt := 0, updatedAt := 0,
       triggeredAt := none, completedAt := none, callOutcome := none,
       callDuration := none, callSummary := none, errorMessage := none,
       metadata := none },
     { id := 2, status := CallStatus.RUNNING, runId := some "r2",
       attemptNumber := 1, createdAt := 0, updatedAt := 0,
       triggeredAt := some 0, completedAt := none, callOutcome := none,
       callDuration := none, callSummary := none, errorMessage := none,
       metadata := none }] (by decide)
  exact ⟨h.1, fun hb => h.2.1 (by decide)⟩

/-- C2: every dispatcher store operation (a dispatch+poll cycle of any
shape, and the stale-call reaper) preserves the invariant that a PENDING
call has no run identifier and a RUNNING call has a non-null one — the run
identifier is persisted only by the update that simultaneously sets status
RUNNING after a successful trigger; and the poll phase's query selects only
RUNNING calls whose run identifier is non-null. -/
theorem runid_status_invariant (mc errs : Nat) (isPaused : Bool)
    (trigEnv : Nat → TriggerHttp) (pollEnv : String → PollHttp)
    (dateEnv : String → Int) (now now2 : Int) (calls : List Call)
    (hinv : ∀ c ∈ calls, CallInv c) :
    (∀ c ∈ (processQueueCycle mc errs isPaused trigEnv pollEnv dateEnv now
        calls).calls, CallInv c) ∧
    (∀ c ∈ (cleanupZombieRunningCalls calls now now2).1, CallInv c) ∧
    (∀ c ∈ pollSelection calls, c.status = .RUNNING ∧ c.runId ≠ none) := by
  refine ⟨?_, cleanup_inv calls now now2 hinv, ?_⟩
  · unfold processQueueCycle
    dsimp only
    refine pollBatch_inv _ _ _ _ _ ?_
    split
    · split
      · exact triggerBatch_inv _ _ _ _ hinv
      · exact hinv
    · exact hinv
  · intro c hc
    have h := (List.mem_filter.mp hc).2
    simp only [Bool.and_eq_true, decide_eq_true_eq,
      Option.isSome_iff_ne_none] at h
    exact h

/-- C2 witness: a successful trigger on a one-call store yields a store
whose single call is RUNNING with the returned run id, satisfying the
invariant. -/
theorem runid_status_invariant_witness :
    CallInv { id := 1, status := CallStatus.RUNNING, runId := some "run1",
              attemptNumber := 1, createdAt := 0, updatedAt := 0,
              triggeredAt := some 5, completedAt := none, callOutcome := none,
              callDuration := none, callSummary := none, errorMessage := none,
              metadata := none } :=
  (runid_status_invariant 50 0 false (fun _ => TriggerHttp.ok (some ["run1"]))
    (fun _ => PollHttp.networkError) (fun _ => 0) 5 0
    [{ id := 1, status := CallStatus.PENDING, runId := none,
       attemptNumber := 1, createdAt := 0, updatedAt := 0, triggeredAt := none,
       completedAt := none, callOutcome := none, callDuration := none,
       callSummary := none, errorMessage := none, metadata := none }]
    (by decide)).1
    { id := 1, status := CallStatus.RUNNING, runId := some "run1",
      attemptNumber := 1, createdAt := 0, updatedAt := 0,
      triggeredAt := some 5, completedAt := none, callOutcome := none,
      callDuration := none, callSummary := none, errorMessage := none,
      metadata := none }
    (by decide)

/-- C7: when the poll phase polls a RUNNING call and the provider answers
404 (run not found), the call becomes terminal FAILED with the distinct
outcome CALL_LOST_BY_PROVIDER, a completion timestamp and an error message;
when the provider is unavailable (non-OK response or network error) the
call row is not mutated at all, so it is retried on later cycles. -/
theorem poll_not_found_vs_unavailable (mc errs : Nat) (isPaused : Bool)
    (trigEnv : Nat → TriggerHttp) (pollEnv : String → PollHttp)
    (dateEnv : String → Int) (now : Int) (calls : List Call) (c : Call)
    (rid : String) (hnd : (calls.map Call.id).Nodup) (hc : c ∈ calls)
    (hst : c.status = .RUNNING) (hrid : c.runId = some rid) (hne : rid ≠ "") :
    ((pollEnv rid = .httpError ∨ pollEnv rid = .networkError) →
      findById (processQueueCycle mc errs isPaused trigEnv pollEnv dateEnv now
        calls).calls c.id = some c) ∧
    (pollEnv rid = .notFound404 →
      findById (processQueueCycle mc errs isPaused trigEnv pollEnv dateEnv now
        calls).calls c.id =
        some { c with
               status := .FAILED,
               callOutcome := some "CALL_LOST_BY_PROVIDER",
               completedAt := some now,
               errorMessage := some
                 ("Run not found at provider (404) for runId=" ++ rid) }) := by
  have hpend : ∀ n, c.id ∉ (takePendingCalls calls n).map Call.id := by
    intro n hmem
    obtain ⟨p, hp, hpid⟩ := List.mem_map.mp hmem
    obtain ⟨hpmem, hpstat⟩ := takePendingCalls_spec calls n p hp
    have hpc : p = c := List.inj_on_of_nodup_map hnd hpmem hc hpid
    rw [hpc, hst] at hpstat
    exact absurd hpstat (by decide)
  unfold processQueueCycle
  dsimp only
  constructor
  · intro henv
    split
    · split
      · exact (pollPhase_effect pollEnv dateEnv now _ c rid
          (by rw [triggerBatch_map_id]; exact hnd)
          (by rw [triggerBatch_find_untouched now trigEnv _ calls c.id
                (hpend _)]
              exact findById_mem calls c hnd hc)
          hst hrid hne).1 henv
      · exact (pollPhase_effect pollEnv dateEnv now calls c rid hnd
          (findById_mem calls c hnd hc) hst hrid hne).1 henv
    · exact (pollPhase_effect pollEnv dateEnv now calls c rid hnd
        (findById_mem calls c hnd hc) hst hrid hne).1 henv
  · intro henv
    split
    · split
      · exact (pollPhase_effect pollEnv dateEnv now _ c rid
          (by rw [triggerBatch_map_id]; exact hnd)
          (by rw [triggerBatch_find_untouched now trigEnv _ calls c.id
                (hpend _)]
              exact findById_mem calls c hnd hc)
          hst hrid hne).2 henv
      · exact (pollPhase_effect pollEnv dateEnv now calls c rid hnd
          (findById_mem calls c hnd hc) hst hrid hne).2 henv
    · exact (pollPhase_effect pollEnv dateEnv now calls c rid hnd
        (findById_mem calls c hnd hc) hst hrid hne).2 henv

/-- C7 witness: a 404 on the only RUNNING call marks it lost. -/
theorem poll_not_found_vs_unavailable_witness :
    findById (processQueueCycle 50 0 false
      (fun _ => TriggerHttp.networkError "down")
      (fun _ => PollHttp.notFound404) (fun _ => 0) 9
      [{ id := 1, status := CallStatus.RUNNING, runId := some "r1",
         attemptNumber := 1, createdAt := 0, updatedAt := 0,
         triggeredAt := some 0, completedAt := none, callOutcome := none,
         callDuration := none, callSummary := none, errorMessage := none,
         metadata := none }]).calls 1 =
      some { id := 1, status := CallStatus.FAILED,
             runId := some "r1", attemptNumber := 1, createdAt := 0,
             updatedAt := 0, triggeredAt := some 0, completedAt := some 9,
             callOutcome := some "CALL_LOST_BY_PROVIDER",
             callDuration := none, callSummary := none,
             errorMessage := some
               ("Run not found at provider (404) for runId=" ++ "r1"),
             metadata := none } :=
  (poll_not_found_vs_unavailable 50 0 false
    (fun _ => TriggerHttp.networkError "down")
    (fun _ => PollHttp.notFound404) (fun _ => 0) 9
    [{ id := 1, status := CallStatus.RUNNING, runId := some "r1",
       attemptNumber := 1, createdAt := 0, updatedAt := 0,
       triggeredAt := some 0, completedAt := none, callOutcome := none,
       callDuration := none, callSummary := none, errorMessage := none,
       metadata := none }]
    { id := 1, status := CallStatus.RUNNING, runId := some "r1",
      attemptNumber := 1, createdAt := 0, updatedAt := 0,
      triggeredAt := some 0, completedAt := none, callOutcome := none,
      callDuration := none, callSummary := none, errorMessage := none,
      metadata := none }
    "r1" (by decide) (by decide) (by decide) (by decide) (by decide)).2 rfl

end Dispatcher
